import Mathlib

/-!
Verification development for the x402resolve dispute-resolution oracle.

The Python sources are shallowly embedded: floats become exact rationals
(`ℚ`), Python `int` becomes `ℤ`/`ℕ`, dictionaries become insertion-ordered
association lists, and functions that may raise return `Except`.  Square
roots (the sample standard deviation) are kept in squared form so that every
definition stays executable; bridging lemmas relate the squared comparisons
to the `Real.sqrt` formulation used by the source.
-/

/-- Truncation of a rational toward zero, the semantics of Python `int(x)`
applied to a float. -/
def rat_trunc (x : ℚ) : ℤ :=
  if 0 ≤ x then ⌊x⌋ else -⌊-x⌋

/-- Bankers rounding (round half to even semantics) of a rational to an integer: round half to even.
This is the semantics of Python builtin `round(x)` and is used only to
formalise the round-based specification wording `round((80 − q)/80 × 100)` wording; neither
source file calls `round` in its refund computation. -/
def python_round (x : ℚ) : ℤ :=
  let f := ⌊x⌋
  let r := x - (f : ℚ)
  if r < 1/2 then f
  else if 1/2 < r then f + 1
  else if f % 2 = 0 then f else f + 1

/-- Embedding of `VerifierOracle.determine_refund`
(packages/x402-verifier/verifier.py).  Quality scores are exact rationals;
the function returns the recommendation string and the refund percentage.
The partial branch is `((80 - quality_score) / 80) * 100` with no rounding. -/
def determine_refund (quality_score : ℚ) : String × ℚ :=
  if quality_score ≥ 80 then ("release", 0)
  else if quality_score ≥ 50 then ("partial_refund", ((80 - quality_score) / 80) * 100)
  else ("full_refund", 100)

/-- Embedding of `QualityAssessment._calculate_refund`
(packages/mcp-server/utils/quality_assessment.py).  The partial branch is
`int((80 - quality_score) / 30 * 100)`: division by 30, truncated to an
integer by Python `int()`. -/
def mcp_calculate_refund (quality_score : ℚ) : ℤ :=
  if quality_score ≥ 80 then 0
  else if quality_score ≥ 50 then rat_trunc ((80 - quality_score) / 30 * 100)
  else 100

/-- Issue markers recorded by `QualityAssessment._assess_freshness`; the
source appends formatted strings, whose numeric interpolations are
presentational and elided here. -/
inductive FreshIssue
  | stale_data
  | no_timestamp
deriving DecidableEq

/-- Embedding of `QualityAssessment._assess_freshness`
(packages/mcp-server/utils/quality_assessment.py).  The input is the
discovered data age in days (`none` when no timestamp is discoverable in the
payload — `_extract_timestamp` returned `None`); `max_age_days` is the
criterion.  Scores are on the 0–100 scale of the source.  The final
`max(score, 0)` mirrors the `return max(score, 0), issues` line. -/
def mcp_assess_freshness (age_days : Option ℚ) (max_age_days : ℤ) : ℚ × List FreshIssue :=
  let result : ℚ × List FreshIssue :=
    match age_days with
    | some d =>
        if d > (max_age_days : ℚ) then
          (max 0 (100 * (1 - d / ((max_age_days : ℚ) * 2))), [FreshIssue.stale_data])
        else
          (100 * (1 - d / (max_age_days : ℚ)), [])
    | none => (50, [FreshIssue.no_timestamp])
  (max result.1 0, result.2)

/-- Embedding of `VerifierOracle.calculate_semantic_similarity`
(packages/x402-verifier/verifier.py).  The sentence-transformer model and
sklearn `cosine_similarity` are external artefacts; their combined outcome
is the input: `some s` is the raw cosine value produced by the library call,
`none` is the exception path of the `try`/`except` block.  The source
returns the raw value unchanged on success and `0.0` on failure; there is no
clamping. -/
def calculate_semantic_similarity (raw_cosine : Option ℚ) : ℚ :=
  match raw_cosine with
  | some s => s
  | none => 0

/-- Boolean substring test on character lists, the semantics of Python
`pat in hay` for strings. -/
def list_contains (pat : List Char) : List Char → Bool
  | [] => pat.isEmpty
  | c :: rest => pat.isPrefixOf (c :: rest) || list_contains pat rest

/-- Substring test on strings: Python `pat in hay`. -/
def str_contains (hay pat : String) : Bool :=
  list_contains pat.data hay.data

/-- Lower-casing of a string, the semantics of Python `s.lower()` (ASCII
range; identical to `Char.toLower` per character). -/
def str_lower (s : String) : String :=
  String.mk (s.data.map Char.toLower)

/-- Abstraction of the payload dictionary passed to the verifier oracle.
`rendered` is the canonical textual rendering `str(data)`;
`exploits` is `some entries` when the key `exploits` is present and maps to
a list, with each entry carrying the parsed age in days of its `date` field
(`none` when the entry has no parseable date).  Dates are external to the
embedding (wall-clock dependent), so ages are the model boundary. -/
structure ReceivedData where
  rendered : String
  exploits : Option (List (Option ℤ))
deriving DecidableEq

/-- Embedding of `VerifierOracle.calculate_completeness`
(packages/x402-verifier/verifier.py).  Mirrors the source: criterion
coverage by lower-cased substring match (weight 0.6), record count against
`expected_count` when the latter is truthy and `exploits` is present
(weight 0.4). -/
def calculate_completeness (data : ReceivedData) (expected_criteria : List String)
    (expected_count : Option ℕ) : ℚ :=
  let data_str := str_lower data.rendered
  let criteria_matched : ℕ :=
    (expected_criteria.filter (fun c => str_contains data_str (str_lower c))).length
  let criteria_score : ℚ :=
    if expected_criteria.isEmpty then 1
    else (criteria_matched : ℚ) / (expected_criteria.length : ℚ)
  let record_count_score : ℚ :=
    match expected_count, data.exploits with
    | some ec, some entries =>
        if ec ≠ 0 then
          if entries.length ≠ 0 then min ((entries.length : ℚ) / (ec : ℚ)) 1 else 0
        else 1
    | _, _ => 1
  criteria_score * (6/10) + record_count_score * (4/10)

/-- Embedding of `VerifierOracle.calculate_freshness`
(packages/x402-verifier/verifier.py).  The parsed timestamp ages (in days,
relative to `datetime.utcnow()`) are read off the `exploits` entries;
an empty age list means no timestamps were found and yields 1.0, otherwise
the tiered decay on the average age applies. -/
def calculate_freshness (data : ReceivedData) : ℚ :=
  let ages : List ℤ :=
    match data.exploits with
    | some entries => entries.reduceOption
    | none => []
  if ages.isEmpty then 1
  else
    let avg_age_days : ℚ := ((ages.map (fun a => (a : ℚ))).sum) / (ages.length : ℚ)
    if avg_age_days ≤ 30 then 1
    else if avg_age_days ≤ 90 then 7/10
    else 3/10

/-- Embedding of `VerifierOracle.calculate_quality_score`
(packages/x402-verifier/verifier.py): the weighted average
`(semantic * 0.4 + completeness * 0.4 + freshness * 0.2) * 100`.  The
`reasoning` string of the source is presentational and elided. -/
def calculate_quality_score (raw_cosine : Option ℚ) (data : ReceivedData)
    (expected_criteria : List String) (expected_count : Option ℕ) : ℚ :=
  let semantic_score := calculate_semantic_similarity raw_cosine
  let completeness_score := calculate_completeness data expected_criteria expected_count
  let freshness_score := calculate_freshness data
  (semantic_score * (4/10) + completeness_score * (4/10) + freshness_score * (2/10)) * 100

/-- Idealised Ed25519 signature: the external `nacl.signing` library is
modelled as a deterministic scheme in which a signature records the signing
key identity and the exact message bytes.  Verification succeeds exactly
when both match, which is the correctness contract of Ed25519. -/
structure Ed25519Sig where
  key_id : ℕ
  msg : String
deriving DecidableEq

/-- Signing key of the idealised scheme; `seed` stands for the private key
material. -/
structure SigningKey where
  seed : ℕ
deriving DecidableEq

/-- Public key derived from a signing key (idealised `key.verify_key`). -/
def verify_key (k : SigningKey) : ℕ := k.seed

/-- Idealised `signing_key.sign(message)`. -/
def ed25519_sign (k : SigningKey) (m : String) : Ed25519Sig :=
  ⟨k.seed, m⟩

/-- Idealised Ed25519 verification against a public key and message. -/
def ed25519_verify (pk : ℕ) (m : String) (sig : Ed25519Sig) : Bool :=
  decide (sig.key_id = pk ∧ sig.msg = m)

/-- Canonical signed message of `VerifierOracle.sign_result`
(packages/x402-verifier/verifier.py): the Python f-string
produces the transaction id, a colon, and the decimal rendering of the
integer score.  Working at `String` level is faithful because UTF-8
encoding is injective. -/
def sign_message (transaction_id : String) (quality_score : ℤ) : String :=
  transaction_id ++ ":" ++ toString quality_score

/-- Embedding of `VerifierOracle.sign_result`: sign the canonical message
with the key of the verifier. -/
def sign_result (k : SigningKey) (transaction_id : String) (quality_score : ℤ) : Ed25519Sig :=
  ed25519_sign k (sign_message transaction_id quality_score)

/-- Oracle lifecycle status (`OracleStatus` enum in
packages/x402-verifier/multi_oracle.py). -/
inductive OracleStatus
  | active
  | suspended
  | banned
deriving DecidableEq

/-- Oracle registration record (`Oracle` dataclass in multi_oracle.py).
Stakes are exact rationals standing for the float SOL amounts. -/
structure Oracle where
  pubkey : String
  stake : ℚ
  total_assessments : ℤ
  slashed_count : ℤ
  reputation_score : ℤ
  status : OracleStatus
deriving DecidableEq

/-- Single oracle quality assessment (`OracleAssessment` dataclass in
multi_oracle.py). -/
structure OracleAssessment where
  oracle_pubkey : String
  quality_score : ℤ
  reasoning : String
  signature : String
  timestamp : ℤ
deriving DecidableEq

/-- Registry state of `MultiOracleSystem`: the Python dict
`self.oracles` is an insertion-ordered mapping, embedded as an association
list in insertion order. -/
structure MultiOracleSystem where
  oracles : List (String × Oracle)
deriving DecidableEq

/-- Dictionary lookup `self.oracles[pubkey]` / `pubkey in self.oracles`. -/
def lookup_oracle (sys : MultiOracleSystem) (pk : String) : Option Oracle :=
  sys.oracles.lookup pk

/-- Embedding of `MultiOracleSystem.register_oracle` (multi_oracle.py).
The `signing_key` argument of the source is never stored or read and is
elided.  Returns the new state and the success flag. -/
def register_oracle (sys : MultiOracleSystem) (pk : String) (stake : ℚ) :
    MultiOracleSystem × Bool :=
  if stake < 10 then (sys, false)
  else if (lookup_oracle sys pk).isSome then (sys, false)
  else (⟨sys.oracles ++ [(pk, ⟨pk, stake, 0, 0, 500, OracleStatus.active⟩)]⟩, true)

/-- Core of `MultiOracleSystem.slash_oracle` acting on a single registered
oracle record: increment `slashed_count`, then apply the offence table.
Returns the updated record, the slashed amount, and the banned flag. -/
def slash_step (o : Oracle) : Oracle × ℚ × Bool :=
  let c := o.slashed_count + 1
  if c = 1 then
    ({ o with
        slashed_count := c
        reputation_score := max 0 (o.reputation_score - 100) }, 0, false)
  else if c = 2 then
    let amt := o.stake * (1/10)
    ({ o with
        slashed_count := c
        stake := o.stake - amt
        reputation_score := max 0 (o.reputation_score - 200) }, amt, false)
  else if c = 3 then
    let amt := o.stake * (1/2)
    ({ o with
        slashed_count := c
        stake := o.stake - amt
        status := OracleStatus.suspended }, amt, false)
  else
    ({ o with
        slashed_count := c
        stake := 0
        status := OracleStatus.banned }, o.stake, true)

/-- Replacement of the record stored under `pk` (Python dict item
assignment, which preserves insertion order). -/
def update_oracle (l : List (String × Oracle)) (pk : String) (o : Oracle) :
    List (String × Oracle) :=
  l.map (fun p => if p.1 = pk then (pk, o) else p)

/-- Error taxonomy for registry operations; the `Except` channel models
Python exceptions.  The translated `slash_oracle` body raises on no path:
an unregistered key is logged and answered with `(0.0, False)`. -/
inductive OracleError
  | unknown_oracle (pk : String)
deriving DecidableEq

/-- Embedding of `MultiOracleSystem.slash_oracle` (multi_oracle.py).
The `reason` argument only feeds log messages. -/
def slash_oracle (sys : MultiOracleSystem) (pk : String) (reason : String) :
    Except OracleError (MultiOracleSystem × ℚ × Bool) :=
  match lookup_oracle sys pk with
  | none => Except.ok (sys, 0, false)
  | some o =>
      let r := slash_step o
      Except.ok (⟨update_oracle sys.oracles pk r.1⟩, r.2.1, r.2.2)

/-- Iterated slashing of a single oracle record, for stating properties of
sequences of `slash` calls. -/
def slash_iter (o : Oracle) : ℕ → Oracle
  | 0 => o
  | n + 1 => (slash_step (slash_iter o n)).1

/-- Status transitions the specification allows: stay in place,
Active to Suspended, Active to Banned, Suspended to Banned; Banned only
maps to itself. -/
def allowed_transition (s t : OracleStatus) : Prop :=
  s = t ∨
  (s = OracleStatus.active ∧ t = OracleStatus.suspended) ∨
  (s = OracleStatus.active ∧ t = OracleStatus.banned) ∨
  (s = OracleStatus.suspended ∧ t = OracleStatus.banned)

/-- Oracle records reachable in the source system: created by
`register_oracle` (with the minimum-stake guard passed) and mutated only by
`slash_oracle`. -/
inductive ReachableOracle : Oracle → Prop
  | registered (pk : String) (st : ℚ) (h : 10 ≤ st) :
      ReachableOracle ⟨pk, st, 0, 0, 500, OracleStatus.active⟩
  | slashed (o : Oracle) (h : ReachableOracle o) : ReachableOracle (slash_step o).1

/-- Structure of `ConsensusResult` (multi_oracle.py).  The source stores
`std_dev = sqrt(sample_variance)` as a float; the embedding keeps the exact
`sample_variance` so that every field is computable, and the bridging lemma
`outlier_condition_iff_sq` relates the squared comparison used below to the
source comparison `deviation > 1.5 * std_dev`. -/
structure ConsensusResult where
  median_score : ℤ
  mean_score : ℚ
  sample_variance : ℚ
  confidence : ℕ
  outlier_indices : List ℕ
  assessments : List OracleAssessment
deriving DecidableEq

/-- Embedding of `int(statistics.median(scores))`: sort, take the middle
element for odd length; for even length Python returns the float
`(lower_middle + upper_middle) / 2` (exact for these magnitudes) and `int()`
truncates it toward zero, which is `Int.div` of the sum by 2. -/
def median_int (scores : List ℤ) : ℤ :=
  let s := List.insertionSort (fun a b => a ≤ b) scores
  let n := s.length
  if n % 2 = 1 then s.getD (n / 2) 0
  else Int.tdiv (s.getD (n / 2 - 1) 0 + s.getD (n / 2) 0) 2

/-- Embedding of `statistics.mean(scores)` as an exact rational. -/
def mean_rat (scores : List ℤ) : ℚ :=
  ((scores.map fun a => (a : ℚ)).sum) / (scores.length : ℚ)

/-- Sample variance with the Bessel correction, the square of
`statistics.stdev(scores)`; `0` when fewer than two scores, mirroring the
`len(scores) > 1` guard in `calculate_consensus`. -/
def sample_var (scores : List ℤ) : ℚ :=
  if 1 < scores.length then
    ((scores.map fun a => ((a : ℚ) - mean_rat scores) ^ 2).sum) / ((scores.length : ℚ) - 1)
  else 0

/-- Embedding of the outlier scan in `calculate_consensus`: index `i` is an
outlier when `abs(score_i - mean) > OUTLIER_THRESHOLD * std_dev` with
threshold 1.5.  Both sides are non-negative, so the comparison is squared:
`deviation^2 > (9/4) * variance`, i.e. `9 * variance < 4 * deviation^2`. -/
def outlier_idx (scores : List ℤ) : List ℕ :=
  let m := mean_rat scores
  let v := sample_var scores
  (List.range scores.length).filter
    (fun i => decide (9 * v < 4 * ((scores.getD i 0 : ℚ) - m) ^ 2))

/-- Embedding of `MultiOracleSystem._calculate_confidence`: the bucket
comparisons `std_dev < 5, 10, 15, 20` are squared to `variance < 25, 100,
225, 400`. -/
def confidence_of (v : ℚ) : ℕ :=
  if v < 25 then 100
  else if v < 100 then 90
  else if v < 225 then 75
  else if v < 400 then 60
  else 40

/-- Pure aggregation step of `MultiOracleSystem.calculate_consensus`,
applied once the minimum-count guard has passed. -/
def consensus_core (assessments : List OracleAssessment) : ConsensusResult :=
  let scores := assessments.map OracleAssessment.quality_score
  { median_score := median_int scores
    mean_score := mean_rat scores
    sample_variance := sample_var scores
    confidence := confidence_of (sample_var scores)
    outlier_indices := outlier_idx scores
    assessments := assessments }

/-- Error raised by `calculate_consensus` when fewer than `MIN_ORACLES = 3`
assessments are supplied (the `ValueError` in the source). -/
inductive ConsensusError
  | too_few_assessments (got : ℕ)
deriving DecidableEq

/-- Embedding of `MultiOracleSystem.calculate_consensus` (multi_oracle.py).
The method reads only class constants besides its argument and assigns to no
attribute, so the state it returns is the state it received; returning the
state explicitly makes that frame property a statement rather than a
convention. -/
def calculate_consensus (sys : MultiOracleSystem) (assessments : List OracleAssessment) :
    MultiOracleSystem × Except ConsensusError ConsensusResult :=
  if assessments.length < 3 then
    (sys, Except.error (ConsensusError.too_few_assessments assessments.length))
  else
    (sys, Except.ok (consensus_core assessments))

/-- Active oracle keys in registry order, the list comprehension at the top
of `select_oracles`. -/
def active_oracles (sys : MultiOracleSystem) : List String :=
  (sys.oracles.filter (fun p => decide (p.2.status = OracleStatus.active))).map Prod.fst

/-- Error taxonomy of `select_oracles`: the `ValueError` raised when
`count` exceeds the number of active oracles (named
`InsufficientOracles` by the specification), and `out_of_fuel`, which stands for non-termination
of the unbounded `while` loop in the source. -/
inductive SelectError
  | insufficient_oracles (active count : ℕ)
  | out_of_fuel
deriving DecidableEq

/-- Embedding of the selection loop of `select_oracles`.  The function `h`
maps a nonce to `int.from_bytes(sha256(seed + nonce_be4)[:4], big)`; SHA-256
is an external primitive, and fixing the 32-byte seed fixes `h`, so seed
determinism is the statement that the result depends only on `h`, `count`
and the active list.  The source loop is unbounded; `fuel` bounds it,
with exhaustion standing for non-termination. -/
def select_loop (count : ℕ) (active : List String) (h : ℕ → ℕ) :
    ℕ → List String → ℕ → Option (List String)
  | 0, selected, _ => if count ≤ selected.length then some selected else none
  | fuel + 1, selected, nonce =>
      if count ≤ selected.length then some selected
      else
        let index := h nonce % active.length
        let pk := active.getD index ""
        select_loop count active h fuel
          (if pk ∈ selected then selected else selected ++ [pk]) (nonce + 1)

/-- Embedding of `MultiOracleSystem.select_oracles` (multi_oracle.py). -/
def select_oracles (sys : MultiOracleSystem) (count : ℕ) (h : ℕ → ℕ) (fuel : ℕ) :
    Except SelectError (List String) :=
  let active := active_oracles sys
  if active.length < count then
    Except.error (SelectError.insufficient_oracles active.length count)
  else
    match select_loop count active h fuel [] 0 with
    | some l => Except.ok l
    | none => Except.error SelectError.out_of_fuel

/-- Evaluation rule for `rat_trunc` on non-negative inputs pinned between
consecutive integers. -/
lemma rat_trunc_eq_of (x : ℚ) (n : ℤ) (h0 : 0 ≤ x) (h1 : (n : ℚ) ≤ x) (h2 : x < n + 1) :
    rat_trunc x = n := by
  unfold rat_trunc
  rw [if_pos h0]
  exact Int.floor_eq_iff.mpr ⟨h1, by exact_mod_cast h2⟩

/-- Monotonicity of truncation on non-negative rationals. -/
lemma rat_trunc_mono (x y : ℚ) (hx : 0 ≤ x) (hxy : x ≤ y) :
    rat_trunc x ≤ rat_trunc y := by
  unfold rat_trunc
  rw [if_pos hx, if_pos (le_trans hx hxy)]
  exact Int.floor_le_floor hxy

/-- Truncation of a non-negative rational is non-negative. -/
lemma rat_trunc_nonneg (x : ℚ) (hx : 0 ≤ x) : 0 ≤ rat_trunc x := by
  unfold rat_trunc
  rw [if_pos hx]
  exact Int.floor_nonneg.mpr hx

/-- Truncation does not exceed an integer bound on the argument. -/
lemma rat_trunc_le (x : ℚ) (n : ℤ) (hx : 0 ≤ x) (h : x ≤ (n : ℚ)) :
    rat_trunc x ≤ n := by
  unfold rat_trunc
  rw [if_pos hx]
  exact le_trans (Int.floor_le_floor h) (by simp)

/-- C5. For every transaction id `T` and integer quality score `q`, the
signer signs exactly the message `T ++ ":" ++ toString q` (the UTF-8
encoding of the Python f-string, UTF-8 being injective on strings), and
verification of that message under the service public key succeeds in the
idealised Ed25519 scheme. -/
theorem c5_sign_roundtrip (k : SigningKey) (T : String) (q : ℤ) :
    sign_result k T q = ed25519_sign k (T ++ ":" ++ toString q) ∧
    ed25519_verify (verify_key k) (sign_message T q) (sign_result k T q) = true := by
  refine ⟨rfl, ?_⟩
  simp [ed25519_verify, sign_result, ed25519_sign, verify_key]

/-- C9 counterexample. Slashing an unregistered key does not yield an
error: the call returns `Except.ok` with amount 0 and no ban, the registry
untouched, so no `UnknownOracle` error propagates to the caller. -/
theorem c9_counterexample :
    slash_oracle ⟨[]⟩ "unknown" "reason" = Except.ok (⟨[]⟩, 0, false) ∧
    ¬ ∃ e, slash_oracle ⟨[]⟩ "unknown" "reason" = Except.error e := by
  refine ⟨rfl, ?_⟩
  rintro ⟨e, he⟩
  simp [slash_oracle, lookup_oracle] at he

/-- C9 amended. Slashing a key absent from the registry returns the normal
result `(0.0, False)` without raising, and leaves the registry state
exactly unchanged. -/
theorem c9_slash_unknown (sys : MultiOracleSystem) (pk reason : String)
    (h : lookup_oracle sys pk = none) :
    slash_oracle sys pk reason = Except.ok (sys, 0, false) := by
  unfold slash_oracle
  rw [h]

/-- Witness for C9 amended at the empty registry. -/
theorem c9_slash_unknown_witness :
    slash_oracle ⟨[]⟩ "k" "r" = Except.ok (⟨[]⟩, 0, false) :=
  c9_slash_unknown ⟨[]⟩ "k" "r" rfl

/-- C10. Consensus calculation leaves the oracle registry completely
unchanged, whether it returns a result or fails the minimum-count guard:
the state component of the embedded method equals the input state on every
path, so each oracle record is exactly as before the call. -/
theorem c10_consensus_frame (sys : MultiOracleSystem) (assessments : List OracleAssessment) :
    (calculate_consensus sys assessments).1 = sys := by
  unfold calculate_consensus
  split <;> rfl

/-- C4. The semantic similarity component is not clamped: a negative raw
cosine passes through `calculate_semantic_similarity` unchanged (while the
exception path does return 0), and with it the weighted quality score can
leave `[0, 100]` — the concrete run below yields -20.  This contradicts the
function docstring `Returns: 0.0-1.0` and the specification. -/
theorem c4_semantic_not_clamped :
    calculate_semantic_similarity (some (-1)) = -1 ∧
    ((-1 : ℚ) < 0) ∧
    calculate_semantic_similarity none = 0 ∧
    calculate_quality_score (some (-1)) ⟨"x", some []⟩ ["uniswap"] (some 10) = -20 ∧
    ¬ (0 ≤ (-20 : ℚ)) := by
  have hb : str_contains (str_lower "x") (str_lower "uniswap") = false := by decide
  refine ⟨rfl, by norm_num, rfl, ?_, by norm_num⟩
  unfold calculate_quality_score calculate_semantic_similarity calculate_completeness
    calculate_freshness
  simp [hb]
  norm_num

/-- C8. Freshness assessment with a maximum-age criterion: for discovered
age `d` (days) and `max_age_days = m > 0`, the score is `100·(1 − d/m)`
when `d ≤ m` and `max(0, 100·(1 − d/(2m)))` when `d > m`; with no
discoverable timestamp the score is 50 (0.5 on the unit scale of the
specification) and an issue is recorded.  The last conjunct restates the
linear branch on the unit scale. -/
theorem c8_freshness (d : ℚ) (m : ℤ) (hm : 0 < m) :
    (d ≤ (m : ℚ) → mcp_assess_freshness (some d) m = (100 * (1 - d / (m : ℚ)), [])) ∧
    ((m : ℚ) < d → mcp_assess_freshness (some d) m =
      (max 0 (100 * (1 - d / ((m : ℚ) * 2))), [FreshIssue.stale_data])) ∧
    mcp_assess_freshness none m = (50, [FreshIssue.no_timestamp]) ∧
    (d ≤ (m : ℚ) → (mcp_assess_freshness (some d) m).1 / 100 = 1 - d / (m : ℚ)) := by
  have hm0 : (0 : ℚ) < (m : ℚ) := by exact_mod_cast hm
  have hlin : d ≤ (m : ℚ) → mcp_assess_freshness (some d) m = (100 * (1 - d / (m : ℚ)), []) := by
    intro hd
    simp only [mcp_assess_freshness]
    rw [if_neg (not_lt.mpr hd)]
    have h1 : d / (m : ℚ) ≤ 1 := (div_le_one hm0).mpr hd
    have h2 : (0 : ℚ) ≤ 100 * (1 - d / (m : ℚ)) := by nlinarith
    simp [max_eq_left h2]
  refine ⟨hlin, ?_, ?_, ?_⟩
  · intro hd
    simp only [mcp_assess_freshness]
    rw [if_pos hd]
    simp [max_comm]
  · simp only [mcp_assess_freshness]
    norm_num
  · intro hd
    rw [hlin hd]
    field_simp
    ring

/-- Witness for C8 at age 10 days against a 30-day criterion, and with a
missing timestamp. -/
theorem c8_freshness_witness :
    mcp_assess_freshness (some 10) 30 = (100 * (1 - 10 / (30 : ℚ)), []) ∧
    mcp_assess_freshness none 30 = (50, [FreshIssue.no_timestamp]) :=
  ⟨(c8_freshness 10 30 (by norm_num)).1 (by norm_num),
    (c8_freshness 10 30 (by norm_num)).2.2.1⟩

/-- C1 counterexample. At quality 50 the verifier returns the unrounded
refund 37.5 while the claim formula `round((80 − q)/80 × 100)` gives 38
(Python round-half-to-even applied to 37.5), and the MCP assessor returns 100 (its
partial branch divides by 30, reaching 100 at quality 50); neither matches
the claim. -/
theorem c1_counterexample :
    (determine_refund 50).2 = 75 / 2 ∧
    mcp_calculate_refund 50 = 100 ∧
    python_round ((80 - 50) / 80 * 100) = 38 ∧
    ((75 / 2 : ℚ) ≠ ((38 : ℤ) : ℚ)) ∧
    ((100 : ℤ) ≠ 38) := by
  refine ⟨by norm_num [determine_refund], ?_, ?_, by norm_num, by norm_num⟩
  · have h : mcp_calculate_refund 50 = rat_trunc ((80 - 50) / 30 * 100) := by
      norm_num [mcp_calculate_refund]
    rw [h, show ((80 - 50 : ℚ) / 30 * 100) = 100 by norm_num]
    exact rat_trunc_eq_of 100 100 (by norm_num) (by norm_num) (by norm_num)
  · have hf : ⌊(80 - 50 : ℚ) / 80 * 100⌋ = 37 := by
      rw [show ((80 - 50 : ℚ) / 80 * 100) = 75 / 2 by norm_num]
      exact Int.floor_eq_iff.mpr ⟨by norm_num, by norm_num⟩
    simp only [python_round, hf]
    norm_num

/-- Monotonicity of the verifier refund curve. -/
lemma determine_refund_mono (q r : ℚ) (hqr : q ≤ r) :
    (determine_refund r).2 ≤ (determine_refund q).2 := by
  unfold determine_refund
  split_ifs <;> simp <;> linarith

/-- Monotonicity of the MCP assessor refund curve. -/
lemma mcp_refund_mono (q r : ℚ) (hqr : q ≤ r) :
    mcp_calculate_refund r ≤ mcp_calculate_refund q := by
  unfold mcp_calculate_refund
  rcases le_or_lt 80 q with hq1 | hq1
  · rw [if_pos (show r ≥ 80 by linarith), if_pos (show q ≥ 80 from hq1)]
  · rw [if_neg (show ¬ q ≥ 80 from not_le.mpr hq1)]
    rcases le_or_lt 50 q with hq2 | hq2
    · rw [if_pos (show q ≥ 50 from hq2)]
      rcases le_or_lt 80 r with hr1 | hr1
      · rw [if_pos (show r ≥ 80 from hr1)]
        exact rat_trunc_nonneg _ (by nlinarith)
      · rw [if_neg (show ¬ r ≥ 80 from not_le.mpr hr1),
            if_pos (show r ≥ 50 by linarith)]
        exact rat_trunc_mono _ _ (by nlinarith) (by nlinarith)
    · rw [if_neg (show ¬ q ≥ 50 from not_le.mpr hq2)]
      rcases le_or_lt 80 r with hr1 | hr1
      · rw [if_pos (show r ≥ 80 from hr1)]
        norm_num
      · rw [if_neg (show ¬ r ≥ 80 from not_le.mpr hr1)]
        rcases le_or_lt 50 r with hr2 | hr2
        · rw [if_pos (show r ≥ 50 from hr2)]
          refine rat_trunc_le _ 100 (by nlinarith) ?_
          push_cast
          nlinarith
        · rw [if_neg (show ¬ r ≥ 50 from not_le.mpr hr2)]

/-- Continuity of the verifier refund curve at quality 80. -/
lemma determine_refund_cont (ε : ℚ) (hε : 0 < ε) :
    ∃ δ : ℚ, 0 < δ ∧ ∀ x : ℚ, |x - 80| < δ → |(determine_refund x).2| < ε := by
  refine ⟨min 1 (4 / 5 * ε), by positivity, ?_⟩
  intro x hx
  have hδ1 : min 1 (4 / 5 * ε) ≤ 1 := min_le_left _ _
  have hδ2 : min 1 (4 / 5 * ε) ≤ 4 / 5 * ε := min_le_right _ _
  have hx1 : 80 - min 1 (4 / 5 * ε) < x := by
    have h := (abs_lt.mp hx).1
    linarith
  have hx2 : x - 80 < min 1 (4 / 5 * ε) := (abs_lt.mp hx).2
  unfold determine_refund
  split_ifs with h1 h2
  · simpa using hε
  · have hx80 : x < 80 := not_le.mp h1
    have hv : (0 : ℚ) ≤ (80 - x) / 80 * 100 := by linarith
    simp only [abs_of_nonneg hv]
    linarith
  · exfalso
    have : x < 50 := not_le.mp h2
    linarith

/-- C1 amended. The refund curves as implemented: the verifier
(`determine_refund`) gives release with 0 for quality at least 80, full
refund 100 below 50, and the exact unrounded `(80 − q)/80 · 100` in
between, so it jumps from 37.5 to 100 at 50 and is continuous at 80; the
MCP assessor (`_calculate_refund`) uses `int((80 − q)/30 · 100)` in the
partial band, reaching 100 already at quality 50.  Both are monotone
non-increasing. -/
theorem c1_refund_curve (q r : ℚ) :
    (80 ≤ q → determine_refund q = ("release", 0) ∧ mcp_calculate_refund q = 0) ∧
    (q < 50 → determine_refund q = ("full_refund", 100) ∧ mcp_calculate_refund q = 100) ∧
    (50 ≤ q → q < 80 →
      determine_refund q = ("partial_refund", (80 - q) / 80 * 100) ∧
      mcp_calculate_refund q = rat_trunc ((80 - q) / 30 * 100)) ∧
    (q ≤ r → (determine_refund r).2 ≤ (determine_refund q).2 ∧
      mcp_calculate_refund r ≤ mcp_calculate_refund q) ∧
    (determine_refund 50).2 = 75 / 2 ∧
    mcp_calculate_refund 50 = 100 ∧
    (∀ ε : ℚ, 0 < ε → ∃ δ : ℚ, 0 < δ ∧ ∀ x : ℚ, |x - 80| < δ → |(determine_refund x).2| < ε) := by
  refine ⟨?_, ?_, ?_, ?_, ?_, ?_, fun ε hε => determine_refund_cont ε hε⟩
  · intro h
    constructor
    · unfold determine_refund
      rw [if_pos h]
    · unfold mcp_calculate_refund
      rw [if_pos h]
  · intro h
    constructor
    · unfold determine_refund
      rw [if_neg (by linarith), if_neg (by linarith)]
    · unfold mcp_calculate_refund
      rw [if_neg (by linarith), if_neg (by linarith)]
  · intro h1 h2
    constructor
    · unfold determine_refund
      rw [if_neg (by linarith), if_pos h1]
    · unfold mcp_calculate_refund
      rw [if_neg (by linarith), if_pos h1]
  · intro h
    exact ⟨determine_refund_mono q r h, mcp_refund_mono q r h⟩
  · norm_num [determine_refund]
  · have h : mcp_calculate_refund 50 = rat_trunc ((80 - 50) / 30 * 100) := by
      norm_num [mcp_calculate_refund]
    rw [h, show ((80 - 50 : ℚ) / 30 * 100) = 100 by norm_num]
    exact rat_trunc_eq_of 100 100 (by norm_num) (by norm_num) (by norm_num)

/-- Witness for C1 amended at quality 60 (and 70 for monotonicity). -/
theorem c1_refund_curve_witness :
    determine_refund 60 = ("partial_refund", (80 - 60) / 80 * 100) ∧
    mcp_calculate_refund 60 = rat_trunc ((80 - 60) / 30 * 100) ∧
    (determine_refund 70).2 ≤ (determine_refund 60).2 := by
  have h := (c1_refund_curve 60 70).2.2.1 (by norm_num) (by norm_num)
  have hm := (c1_refund_curve 60 70).2.2.2.1 (by norm_num)
  exact ⟨h.1, h.2, hm.1⟩

/-- Odd-length case of the embedded median: the middle element of the
sorted list, hence one of the input scores. -/
lemma median_int_odd_mem (scores : List ℤ) (h0 : scores.length ≠ 0)
    (hodd : scores.length % 2 = 1) : median_int scores ∈ scores := by
  simp only [median_int]
  have hlen := List.length_insertionSort (fun a b => a ≤ b) scores
  rw [hlen, if_pos hodd]
  have hlt : scores.length / 2 < (List.insertionSort (fun a b => a ≤ b) scores).length := by
    rw [hlen]
    omega
  rw [List.getD_eq_getElem _ 0 hlt]
  exact (List.mem_insertionSort _).mp (List.getElem_mem hlt)

/-- Even-length case of the embedded median: truncation toward zero of the
mean of the two middle elements of the sorted list. -/
lemma median_int_even (scores : List ℤ) (heven : scores.length % 2 = 0) :
    median_int scores =
      Int.tdiv
        ((List.insertionSort (fun a b => a ≤ b) scores).getD (scores.length / 2 - 1) 0 +
          (List.insertionSort (fun a b => a ≤ b) scores).getD (scores.length / 2) 0) 2 := by
  simp only [median_int]
  have hlen := List.length_insertionSort (fun a b => a ≤ b) scores
  rw [hlen, if_neg (by omega)]

/-- C2 counterexample. Four assessments with scores [0, 3, 5, 10] pass the
minimum-count guard; `int(statistics.median(...))` gives `int((3+5)/2) = 4`,
which is neither the lower middle element 3 nor any input score. -/
theorem c2_counterexample :
    (calculate_consensus ⟨[]⟩
        [⟨"o1", 0, "", "", 0⟩, ⟨"o2", 3, "", "", 0⟩, ⟨"o3", 5, "", "", 0⟩,
          ⟨"o4", 10, "", "", 0⟩]).2 =
      Except.ok (consensus_core
        [⟨"o1", 0, "", "", 0⟩, ⟨"o2", 3, "", "", 0⟩, ⟨"o3", 5, "", "", 0⟩,
          ⟨"o4", 10, "", "", 0⟩]) ∧
    (consensus_core [⟨"o1", 0, "", "", 0⟩, ⟨"o2", 3, "", "", 0⟩, ⟨"o3", 5, "", "", 0⟩,
        ⟨"o4", 10, "", "", 0⟩]).median_score = 4 ∧
    (4 : ℤ) ∉ (([⟨"o1", 0, "", "", 0⟩, ⟨"o2", 3, "", "", 0⟩, ⟨"o3", 5, "", "", 0⟩,
        ⟨"o4", 10, "", "", 0⟩] : List OracleAssessment).map OracleAssessment.quality_score) ∧
    (4 : ℤ) ≠ 3 := by
  refine ⟨?_, ?_, by decide, by decide⟩
  · simp [calculate_consensus]
  · show median_int [0, 3, 5, 10] = 4
    decide

/-- C2 amended. With at least three assessments the consensus succeeds and
returns `median_score = int(statistics.median(scores))`: for odd length the
middle element of the sorted scores, which is one of the input scores; for
even length the truncation toward zero of the mean of the two middle
elements, which need not be an input score (see the counterexample). -/
theorem c2_median (sys : MultiOracleSystem) (assessments : List OracleAssessment)
    (h3 : 3 ≤ assessments.length) :
    (calculate_consensus sys assessments).2 = Except.ok (consensus_core assessments) ∧
    ((assessments.map OracleAssessment.quality_score).length % 2 = 1 →
      (consensus_core assessments).median_score ∈
        assessments.map OracleAssessment.quality_score) ∧
    ((assessments.map OracleAssessment.quality_score).length % 2 = 0 →
      (consensus_core assessments).median_score =
        Int.tdiv
          ((List.insertionSort (fun a b => a ≤ b)
              (assessments.map OracleAssessment.quality_score)).getD
            ((assessments.map OracleAssessment.quality_score).length / 2 - 1) 0 +
            (List.insertionSort (fun a b => a ≤ b)
              (assessments.map OracleAssessment.quality_score)).getD
            ((assessments.map OracleAssessment.quality_score).length / 2) 0) 2) := by
  have hlenmap : (assessments.map OracleAssessment.quality_score).length =
      assessments.length := List.length_map _ _
  refine ⟨?_, ?_, ?_⟩
  · unfold calculate_consensus
    rw [if_neg (by omega)]
  · intro hodd
    exact median_int_odd_mem _ (by omega) hodd
  · intro heven
    exact median_int_even _ heven

/-- Witness for C2 amended at three assessments with scores [1, 2, 3]. -/
theorem c2_median_witness :
    (consensus_core [⟨"a", 1, "", "", 0⟩, ⟨"b", 2, "", "", 0⟩,
        ⟨"c", 3, "", "", 0⟩]).median_score ∈
      (([⟨"a", 1, "", "", 0⟩, ⟨"b", 2, "", "", 0⟩, ⟨"c", 3, "", "", 0⟩] :
        List OracleAssessment).map OracleAssessment.quality_score) :=
  (c2_median ⟨[]⟩
    [⟨"a", 1, "", "", 0⟩, ⟨"b", 2, "", "", 0⟩, ⟨"c", 3, "", "", 0⟩]
    (by decide)).2.1 (by decide)

/-- Invariant of reachable oracle records linking slash count, stake sign
and status: counts 0 to 2 are Active, exactly 3 is Suspended, 4 or more is
Banned, and stake is non-negative throughout. -/
lemma reachable_invariant (o : Oracle) (h : ReachableOracle o) :
    0 ≤ o.stake ∧ 0 ≤ o.slashed_count ∧
    (o.slashed_count ≤ 2 → o.status = OracleStatus.active) ∧
    (o.slashed_count = 3 → o.status = OracleStatus.suspended) ∧
    (4 ≤ o.slashed_count → o.status = OracleStatus.banned) := by
  induction h with
  | registered pk st hst =>
      exact ⟨by linarith, by norm_num, fun _ => rfl,
        fun h3 => by simp at h3, fun h4 => by simp at h4⟩
  | slashed o ho ih =>
      obtain ⟨hst, hc, h2, h3, h4⟩ := ih
      simp only [slash_step]
      split_ifs with e1 e2 e3
      · refine ⟨by dsimp; linarith, by dsimp; omega, ?_, ?_, ?_⟩
        · intro _
          exact h2 (by omega)
        · intro hh
          dsimp at hh
          omega
        · intro hh
          dsimp at hh
          omega
      · refine ⟨by dsimp; linarith, by dsimp; omega, ?_, ?_, ?_⟩
        · intro _
          exact h2 (by omega)
        · intro hh
          dsimp at hh
          omega
        · intro hh
          dsimp at hh
          omega
      · refine ⟨by dsimp; linarith, by dsimp; omega, ?_, fun _ => rfl, ?_⟩
        · intro hh
          dsimp at hh
          omega
        · intro hh
          dsimp at hh
          omega
      · refine ⟨by dsimp; linarith, by dsimp; omega, ?_, ?_, fun _ => rfl⟩
        · intro hh
          dsimp at hh
          omega
        · intro hh
          dsimp at hh
          omega

/-- Single slash step on a reachable oracle: stake decreases weakly, stays
non-negative, and the status moves only along an allowed transition. -/
lemma slash_step_props (o : Oracle) (h : ReachableOracle o) :
    (slash_step o).1.stake ≤ o.stake ∧ 0 ≤ (slash_step o).1.stake ∧
    allowed_transition o.status (slash_step o).1.status := by
  obtain ⟨hst, hc, h2, h3, h4⟩ := reachable_invariant o h
  simp only [slash_step]
  split_ifs with e1 e2 e3
  · exact ⟨le_refl _, hst, Or.inl rfl⟩
  · refine ⟨by dsimp; linarith, by dsimp; linarith, Or.inl rfl⟩
  · refine ⟨by dsimp; linarith, by dsimp; linarith, ?_⟩
    have hact : o.status = OracleStatus.active := h2 (by omega)
    exact Or.inr (Or.inl ⟨hact, rfl⟩)
  · refine ⟨by dsimp; linarith, by dsimp; linarith, ?_⟩
    have hcase : o.slashed_count = 3 ∨ 4 ≤ o.slashed_count := by omega
    rcases hcase with hc3 | hc4
    · exact Or.inr (Or.inr (Or.inr ⟨h3 hc3, rfl⟩))
    · exact Or.inl (h4 hc4)

/-- Reachability is preserved by iterated slashing. -/
lemma slash_iter_reachable (o : Oracle) (h : ReachableOracle o) (n : ℕ) :
    ReachableOracle (slash_iter o n) := by
  induction n with
  | zero => exact h
  | succ n ih => exact ReachableOracle.slashed _ ih

/-- C6. Along any sequence of slash calls on a registered oracle, stake is
non-negative and monotone non-increasing and status transitions only along
Active to Suspended, Active to Banned, Suspended to Banned, with Banned
terminal; moreover the concrete Scenario D run — register with stake 10 and
slash four times — passes through (10, Active), (10, Active), (9, Active),
(4.5, Suspended), (0, Banned) with total slashed amount 10. -/
theorem c6_slashing (o : Oracle) (n : ℕ) (h : ReachableOracle o) :
    0 ≤ (slash_iter o n).stake ∧
    (slash_iter o (n + 1)).stake ≤ (slash_iter o n).stake ∧
    allowed_transition (slash_iter o n).status (slash_iter o (n + 1)).status ∧
    ((slash_iter o n).status = OracleStatus.banned →
      (slash_iter o (n + 1)).status = OracleStatus.banned) ∧
    ((slash_iter (⟨"oracle", 10, 0, 0, 500, OracleStatus.active⟩ : Oracle) 0).stake = 10 ∧
      (slash_iter (⟨"oracle", 10, 0, 0, 500, OracleStatus.active⟩ : Oracle) 0).status =
        OracleStatus.active) ∧
    ((slash_iter (⟨"oracle", 10, 0, 0, 500, OracleStatus.active⟩ : Oracle) 1).stake = 10 ∧
      (slash_iter (⟨"oracle", 10, 0, 0, 500, OracleStatus.active⟩ : Oracle) 1).status =
        OracleStatus.active) ∧
    ((slash_iter (⟨"oracle", 10, 0, 0, 500, OracleStatus.active⟩ : Oracle) 2).stake = 9 ∧
      (slash_iter (⟨"oracle", 10, 0, 0, 500, OracleStatus.active⟩ : Oracle) 2).status =
        OracleStatus.active) ∧
    ((slash_iter (⟨"oracle", 10, 0, 0, 500, OracleStatus.active⟩ : Oracle) 3).stake = 9 / 2 ∧
      (slash_iter (⟨"oracle", 10, 0, 0, 500, OracleStatus.active⟩ : Oracle) 3).status =
        OracleStatus.suspended) ∧
    ((slash_iter (⟨"oracle", 10, 0, 0, 500, OracleStatus.active⟩ : Oracle) 4).stake = 0 ∧
      (slash_iter (⟨"oracle", 10, 0, 0, 500, OracleStatus.active⟩ : Oracle) 4).status =
        OracleStatus.banned) ∧
    (slash_step (slash_iter (⟨"oracle", 10, 0, 0, 500, OracleStatus.active⟩ : Oracle) 0)).2.1 +
      (slash_step (slash_iter (⟨"oracle", 10, 0, 0, 500, OracleStatus.active⟩ : Oracle) 1)).2.1 +
      (slash_step (slash_iter (⟨"oracle", 10, 0, 0, 500, OracleStatus.active⟩ : Oracle) 2)).2.1 +
      (slash_step (slash_iter (⟨"oracle", 10, 0, 0, 500, OracleStatus.active⟩ : Oracle) 3)).2.1 =
      10 := by
  have hreach := slash_iter_reachable o h n
  obtain ⟨hmono, hpos, htrans⟩ := slash_step_props _ hreach
  have hs1 : slash_iter (⟨"oracle", 10, 0, 0, 500, OracleStatus.active⟩ : Oracle) 1 =
      ⟨"oracle", 10, 0, 1, 400, OracleStatus.active⟩ := by
    show (slash_step ⟨"oracle", 10, 0, 0, 500, OracleStatus.active⟩).1 = _
    simp only [slash_step]
    norm_num
  have hs2 : slash_iter (⟨"oracle", 10, 0, 0, 500, OracleStatus.active⟩ : Oracle) 2 =
      ⟨"oracle", 9, 0, 2, 200, OracleStatus.active⟩ := by
    show (slash_step (slash_iter (⟨"oracle", 10, 0, 0, 500, OracleStatus.active⟩ : Oracle) 1)).1 = _
    rw [hs1]
    simp only [slash_step]
    norm_num
  have hs3 : slash_iter (⟨"oracle", 10, 0, 0, 500, OracleStatus.active⟩ : Oracle) 3 =
      ⟨"oracle", 9 / 2, 0, 3, 200, OracleStatus.suspended⟩ := by
    show (slash_step (slash_iter (⟨"oracle", 10, 0, 0, 500, OracleStatus.active⟩ : Oracle) 2)).1 = _
    rw [hs2]
    simp only [slash_step]
    norm_num
  have hs4 : slash_iter (⟨"oracle", 10, 0, 0, 500, OracleStatus.active⟩ : Oracle) 4 =
      ⟨"oracle", 0, 0, 4, 200, OracleStatus.banned⟩ := by
    show (slash_step (slash_iter (⟨"oracle", 10, 0, 0, 500, OracleStatus.active⟩ : Oracle) 3)).1 = _
    rw [hs3]
    simp only [slash_step]
    norm_num
  have h0 : slash_iter (⟨"oracle", 10, 0, 0, 500, OracleStatus.active⟩ : Oracle) 0 =
      ⟨"oracle", 10, 0, 0, 500, OracleStatus.active⟩ := rfl
  have hterm : (slash_iter o n).status = OracleStatus.banned →
      (slash_iter o (n + 1)).status = OracleStatus.banned := by
    intro hb
    show (slash_step (slash_iter o n)).1.status = OracleStatus.banned
    rcases htrans with ht | ⟨ht1, _⟩ | ⟨ht1, _⟩ | ⟨ht1, _⟩
    · rw [← ht, hb]
    all_goals rw [hb] at ht1; exact absurd ht1 (by decide)
  have htrans2 : allowed_transition (slash_iter o n).status (slash_iter o (n + 1)).status :=
    htrans
  have hmono2 : (slash_iter o (n + 1)).stake ≤ (slash_iter o n).stake := hmono
  refine ⟨(reachable_invariant _ hreach).1, hmono2, htrans2, hterm, ?_, ?_, ?_, ?_, ?_, ?_⟩
  · exact ⟨by rw [h0], by rw [h0]⟩
  · exact ⟨by rw [hs1], by rw [hs1]⟩
  · exact ⟨by rw [hs2], by rw [hs2]⟩
  · exact ⟨by rw [hs3], by rw [hs3]⟩
  · exact ⟨by rw [hs4], by rw [hs4]⟩
  · rw [h0, hs1, hs2, hs3]
    simp only [slash_step]
    norm_num

/-- Witness for C6 at a freshly registered oracle with stake 10, after two
slashes. -/
theorem c6_slashing_witness :
    0 ≤ (slash_iter (⟨"oracle", 10, 0, 0, 500, OracleStatus.active⟩ : Oracle) 2).stake ∧
    (slash_iter (⟨"oracle", 10, 0, 0, 500, OracleStatus.active⟩ : Oracle) 3).stake ≤
      (slash_iter (⟨"oracle", 10, 0, 0, 500, OracleStatus.active⟩ : Oracle) 2).stake :=
  ⟨(c6_slashing _ 2 (ReachableOracle.registered "oracle" 10 (by norm_num))).1,
    (c6_slashing _ 2 (ReachableOracle.registered "oracle" 10 (by norm_num))).2.1⟩

/-- Invariant of the selection loop: starting from a duplicate-free
selection drawn from the active list, any successful completion has exactly
`count` distinct active keys. -/
lemma select_loop_ok (count : ℕ) (active : List String) (h : ℕ → ℕ)
    (hc : count ≤ active.length) :
    ∀ (fuel : ℕ) (sel : List String) (nonce : ℕ) (l : List String),
      sel.Nodup → (∀ x ∈ sel, x ∈ active) → sel.length ≤ count →
      select_loop count active h fuel sel nonce = some l →
      l.length = count ∧ l.Nodup ∧ ∀ x ∈ l, x ∈ active := by
  intro fuel
  induction fuel with
  | zero =>
      intro sel nonce l hnd hsub hlen hres
      simp only [select_loop] at hres
      rcases Nat.lt_or_ge sel.length count with hlt | hge
      · rw [if_neg (by omega)] at hres
        exact absurd hres (by simp)
      · rw [if_pos (by omega)] at hres
        obtain rfl : sel = l := by injection hres
        exact ⟨by omega, hnd, hsub⟩
  | succ fuel ih =>
      intro sel nonce l hnd hsub hlen hres
      simp only [select_loop] at hres
      rcases Nat.lt_or_ge sel.length count with hlt | hge
      · rw [if_neg (by omega)] at hres
        have hact_pos : 0 < active.length := by omega
        have hidx : h nonce % active.length < active.length :=
          Nat.mod_lt _ hact_pos
        have hpk : active.getD (h nonce % active.length) "" ∈ active := by
          rw [List.getD_eq_getElem _ "" hidx]
          exact List.getElem_mem hidx
        by_cases hmem : active.getD (h nonce % active.length) "" ∈ sel
        · rw [if_pos hmem] at hres
          exact ih sel (nonce + 1) l hnd hsub (by omega) hres
        · rw [if_neg hmem] at hres
          refine ih _ (nonce + 1) l ?_ ?_ ?_ hres
          · rw [List.nodup_append]
            refine ⟨hnd, List.nodup_singleton _, ?_⟩
            intro x hx hx2
            rw [List.mem_singleton] at hx2
            subst hx2
            exact hmem hx
          · intro x hx
            rcases List.mem_append.mp hx with hx | hx
            · exact hsub x hx
            · rw [List.mem_singleton.mp hx]
              exact hpk
          · simp only [List.length_append, List.length_singleton]
            omega
      · rw [if_pos (by omega)] at hres
        obtain rfl : sel = l := by injection hres
        exact ⟨by omega, hnd, hsub⟩

/-- C7. Oracle selection: when `count` exceeds the number of active
oracles the call fails with the `InsufficientOracles` error; any successful
selection is an ordered list of exactly `count` distinct active oracle
keys; and the output depends only on the hash stream (determined by the
seed) and the active set, so two calls with the same seed and the same
active set return the identical list.  The fuel parameter bounds the
unbounded source loop; success properties hold for every fuel. -/
theorem c7_select_oracles (sys : MultiOracleSystem) (count : ℕ) (h : ℕ → ℕ) (fuel : ℕ) :
    ((active_oracles sys).length < count →
      select_oracles sys count h fuel =
        Except.error (SelectError.insufficient_oracles (active_oracles sys).length count)) ∧
    (∀ l, select_oracles sys count h fuel = Except.ok l →
      l.length = count ∧ l.Nodup ∧ ∀ x ∈ l, x ∈ active_oracles sys) ∧
    (∀ sys2 : MultiOracleSystem, active_oracles sys2 = active_oracles sys →
      select_oracles sys2 count h fuel = select_oracles sys count h fuel) := by
  refine ⟨?_, ?_, ?_⟩
  · intro hlt
    unfold select_oracles
    rw [if_pos hlt]
  · intro l hres
    unfold select_oracles at hres
    rcases Nat.lt_or_ge (active_oracles sys).length count with hlt | hge
    · rw [if_pos hlt] at hres
      exact absurd hres (by simp)
    · rw [if_neg (by omega)] at hres
      rcases hloop : select_loop count (active_oracles sys) h fuel [] 0 with _ | l2
      · rw [hloop] at hres
        exact absurd hres (by simp)
      · rw [hloop] at hres
        have hprops := select_loop_ok count (active_oracles sys) h hge fuel [] 0 l2
          List.nodup_nil (by simp) (by simp) hloop
        injection hres with hinj
        rw [← hinj]
        exact hprops
  · intro sys2 heq
    unfold select_oracles
    rw [heq]

/-- Witness for C7: a single active oracle, count 1, constant hash, fuel 1
yields the selection and its properties. -/
theorem c7_select_oracles_witness :
    select_oracles ⟨[("o1", ⟨"o1", 10, 0, 0, 500, OracleStatus.active⟩)]⟩ 1 (fun _ => 0) 1 =
      Except.ok ["o1"] ∧
    (["o1"] : List String).length = 1 ∧ (["o1"] : List String).Nodup ∧
    ∀ x ∈ (["o1"] : List String),
      x ∈ active_oracles ⟨[("o1", ⟨"o1", 10, 0, 0, 500, OracleStatus.active⟩)]⟩ := by
  have hrun : select_oracles ⟨[("o1", ⟨"o1", 10, 0, 0, 500, OracleStatus.active⟩)]⟩ 1
      (fun _ => 0) 1 = Except.ok ["o1"] := by
    simp [select_oracles, select_loop, active_oracles]
  exact ⟨hrun,
    (c7_select_oracles ⟨[("o1", ⟨"o1", 10, 0, 0, 500, OracleStatus.active⟩)]⟩ 1
      (fun _ => 0) 1).2.1 ["o1"] hrun⟩

/-- Sample variance is non-negative. -/
lemma sample_var_nonneg (scores : List ℤ) : 0 ≤ sample_var scores := by
  unfold sample_var
  split_ifs with h
  · apply div_nonneg
    · apply List.sum_nonneg
      intro x hx
      obtain ⟨a, _, rfl⟩ := List.mem_map.mp hx
      positivity
    · have h2 : (1 : ℚ) < (scores.length : ℚ) := by exact_mod_cast h
      linarith
  · exact le_refl 0

/-- Squared form of the outlier threshold: for non-negative deviation `d`
and variance `v`, `1.5 * sqrt v < d` holds exactly when `9v < 4d²`, which
justifies the executable comparison used in `outlier_idx` against the
source comparison `deviation > 1.5 * std_dev`. -/
lemma sqrt_threshold_iff (d v : ℝ) (hd : 0 ≤ d) (hv : 0 ≤ v) :
    (3 / 2) * Real.sqrt v < d ↔ 9 * v < 4 * d ^ 2 := by
  have hs : Real.sqrt v ^ 2 = v := Real.sq_sqrt hv
  have hsn : 0 ≤ Real.sqrt v := Real.sqrt_nonneg v
  constructor
  · intro h
    have h1 : 0 < d - 3 / 2 * Real.sqrt v := by linarith
    have h2 : 0 < d + 3 / 2 * Real.sqrt v := by linarith
    nlinarith [mul_pos h1 h2, hs]
  · intro h
    by_contra hcon
    push_neg at hcon
    have h1 : 0 ≤ 3 / 2 * Real.sqrt v - d := by linarith
    have h2 : 0 ≤ 3 / 2 * Real.sqrt v + d := by linarith
    nlinarith [mul_nonneg h1 h2, hs]

/-- Membership in `outlier_idx` coincides with the source formulation
`abs(score - mean) > 1.5 * sqrt(sample_variance)` over the reals. -/
lemma outlier_idx_iff_sqrt (scores : List ℤ) (i : ℕ) :
    i ∈ outlier_idx scores ↔
      i < scores.length ∧
      (3 / 2 : ℝ) * Real.sqrt ((sample_var scores : ℚ) : ℝ) <
        |((scores.getD i 0 : ℚ) : ℝ) - ((mean_rat scores : ℚ) : ℝ)| := by
  unfold outlier_idx
  simp only [List.mem_filter, List.mem_range, decide_eq_true_eq]
  have hv : (0 : ℝ) ≤ ((sample_var scores : ℚ) : ℝ) := by
    exact_mod_cast sample_var_nonneg scores
  rw [sqrt_threshold_iff _ _ (abs_nonneg _) hv, sq_abs]
  constructor
  · rintro ⟨h1, h2⟩
    exact ⟨h1, by exact_mod_cast h2⟩
  · rintro ⟨h1, h2⟩
    exact ⟨h1, by exact_mod_cast h2⟩

/-- With exactly three scores no index can deviate more than 1.5 sample
standard deviations from the mean (the maximum possible is 2/sqrt(3) of
them), so the outlier scan returns the empty list for every 3-score
input. -/
lemma no_outlier_three (x y z : ℤ) : outlier_idx [x, y, z] = [] := by
  unfold outlier_idx
  rw [List.filter_eq_nil_iff]
  intro i hi
  simp only [List.mem_range, List.length_cons, List.length_nil] at hi
  simp only [decide_eq_true_eq, not_lt]
  have hsv : sample_var [x, y, z] =
      (((x : ℚ) - mean_rat [x, y, z]) ^ 2 + ((y : ℚ) - mean_rat [x, y, z]) ^ 2 +
        ((z : ℚ) - mean_rat [x, y, z]) ^ 2) / 2 := by
    simp [sample_var]
    ring
  rw [hsv]
  interval_cases i <;> simp [List.getD] <;>
    nlinarith [sq_nonneg ((x : ℚ) - mean_rat [x, y, z]),
      sq_nonneg ((y : ℚ) - mean_rat [x, y, z]), sq_nonneg ((z : ℚ) - mean_rat [x, y, z])]

/-- Mean of the Scenario C scores. -/
lemma scenC_mean : mean_rat [70, 72, 70, 71, 5] = 288 / 5 := by
  simp [mean_rat]
  norm_num

/-- Sample variance of the Scenario C scores. -/
lemma scenC_var : sample_var [70, 72, 70, 71, 5] = 8653 / 10 := by
  simp [sample_var, scenC_mean]
  norm_num

/-- Outlier scan on the Scenario C scores flags exactly index 4. -/
lemma scenC_outliers : outlier_idx [70, 72, 70, 71, 5] = [4] := by
  simp only [outlier_idx, scenC_mean, scenC_var]
  rw [show List.range ([70, 72, 70, 71, 5] : List ℤ).length = [0, 1, 2, 3, 4] from rfl]
  simp only [List.filter_cons, List.filter_nil]
  norm_num [List.getD]

/-- C3 counterexample. The instance proposed by the claim itself — three assessments with
scores 70, 71, 5 — produces no outlier: the strong outlier 5 deviates about
1.15 sample standard deviations from the mean, below the 1.5 threshold, and
`outlier_indices` is empty. -/
theorem c3_counterexample :
    (calculate_consensus ⟨[]⟩ [⟨"oracle1", 70, "", "", 0⟩, ⟨"oracle2", 71, "", "", 0⟩,
        ⟨"oracle3", 5, "", "", 0⟩]).2 =
      Except.ok (consensus_core [⟨"oracle1", 70, "", "", 0⟩, ⟨"oracle2", 71, "", "", 0⟩,
        ⟨"oracle3", 5, "", "", 0⟩]) ∧
    (consensus_core [⟨"oracle1", 70, "", "", 0⟩, ⟨"oracle2", 71, "", "", 0⟩,
        ⟨"oracle3", 5, "", "", 0⟩]).outlier_indices = [] := by
  refine ⟨by simp [calculate_consensus], ?_⟩
  show outlier_idx [70, 71, 5] = []
  exact no_outlier_three 70 71 5

/-- C3 amended. For every list of exactly three assessments the outlier
scan identifies nothing (`outlier_indices = []`, since no score can exceed
1.5 sample standard deviations of deviation when n = 3); outlier detection
does fire for larger panels, e.g. the five Scenario C scores
[70, 72, 70, 71, 5] flag exactly index 4 while the median stays 70. -/
theorem c3_outlier_detection (a1 a2 a3 : OracleAssessment) :
    (consensus_core [a1, a2, a3]).outlier_indices = [] ∧
    (consensus_core [⟨"oracle1", 70, "", "", 0⟩, ⟨"oracle2", 72, "", "", 0⟩,
        ⟨"oracle3", 70, "", "", 0⟩, ⟨"oracle4", 71, "", "", 0⟩,
        ⟨"oracle5", 5, "", "", 0⟩]).outlier_indices = [4] ∧
    (consensus_core [⟨"oracle1", 70, "", "", 0⟩, ⟨"oracle2", 72, "", "", 0⟩,
        ⟨"oracle3", 70, "", "", 0⟩, ⟨"oracle4", 71, "", "", 0⟩,
        ⟨"oracle5", 5, "", "", 0⟩]).median_score = 70 := by
  refine ⟨?_, ?_, ?_⟩
  · show outlier_idx [a1.quality_score, a2.quality_score, a3.quality_score] = []
    exact no_outlier_three _ _ _
  · show outlier_idx [70, 72, 70, 71, 5] = [4]
    exact scenC_outliers
  · show median_int [70, 72, 70, 71, 5] = 70
    decide
